import Mathlib

/-!
Verification of the tiered e-commerce extraction engine in `products.py`
(`UniversalEcommerceScraper`).

The Python code is shallowly embedded: HTML documents become a `Node` tree,
BeautifulSoup queries become executable functions over that tree, dictionaries
of extracted fields become the `RawFieldMap` structure (the `scraped_at`
timestamp, a wall-clock value, is omitted), and the in-place dictionary
mutation performed by `validate_product_data` is made explicit by returning
the updated map together with the boolean verdict.  Regular-expression
searches are embedded as executable leftmost-match scanners specialised to the
concrete patterns the source uses; every pattern fed to the text-containment
search is a literal alternation, modelled as case-insensitive substring tests.
Python `str.strip` is modelled by `pyStrip` (ASCII whitespace).
-/

/-! ## String and list utilities mirroring the Python primitives -/

/-- Is a list a prefix of another (decidable, on characters). -/
def pfxOf : List Char → List Char → Bool
  | [], _ => true
  | _ :: _, [] => false
  | a :: as, b :: bs => a == b && pfxOf as bs

/-- Is the first list an infix (contiguous sublist) of the second. -/
def infxOf (n : List Char) : List Char → Bool
  | [] => n.isEmpty
  | b :: bs => pfxOf n (b :: bs) || infxOf n bs

/-- Python `needle in hay` substring containment (case-sensitive). -/
def strContains (hay nee : String) : Bool := infxOf nee.data hay.data

/-- Lower-case a character list (models `re.IGNORECASE` normalisation). -/
def lowerList (l : List Char) : List Char := l.map Char.toLower

/-- Python `str.startswith`. -/
def pyStartsWith (s p : String) : Bool := pfxOf p.data s.data

/-- Python `s[n:]` (drop `n` characters). -/
def pyDrop (s : String) (n : Nat) : String := ⟨s.data.drop n⟩

/-- Python `s[:n]` (take the first `n` characters). -/
def pyTake (s : String) (n : Nat) : String := ⟨s.data.take n⟩

/-- Strip ASCII whitespace from both ends of a character list. -/
def stripList (l : List Char) : List Char :=
  ((l.dropWhile Char.isWhitespace).reverse.dropWhile Char.isWhitespace).reverse

/-- Python `str.strip()`. -/
def pyStrip (s : String) : String := ⟨stripList s.data⟩

/-- Python `str.split(c)` on a single separator character. -/
def splitOnChar (c : Char) : List Char → List (List Char)
  | [] => [[]]
  | a :: as =>
      match splitOnChar c as with
      | h :: t => if a = c then [] :: h :: t else (a :: h) :: t
      | [] => if a = c then [[], []] else [[a]]

/-- Split a string on a separator character, as Python `str.split(sep)`. -/
def pySplit (s : String) (c : Char) : List String :=
  (splitOnChar c s.data).map (fun l => ⟨l⟩)

/-- Whitespace-separated tokens of a character list (accumulator form). -/
def wsTokensAux : List Char → List Char → List (List Char)
  | [], cur => if cur.isEmpty then [] else [cur.reverse]
  | c :: cs, cur =>
      if c.isWhitespace then
        if cur.isEmpty then wsTokensAux cs [] else cur.reverse :: wsTokensAux cs []
      else wsTokensAux cs (c :: cur)

/-- The whitespace-separated tokens of an attribute value (CSS class list). -/
def classTokens (v : String) : List String :=
  (wsTokensAux v.data []).map (fun l => ⟨l⟩)

/-- Python `str.isdigit()`: non-empty and all digits. -/
def pyIsDigit (s : String) : Bool := !s.data.isEmpty && s.data.all Char.isDigit

/-- Case-insensitive match of a literal-alternation pattern against a text:
models `re.search(p1|p2|..., text, re.IGNORECASE)` for literal alternatives. -/
def patMatch (pat : List String) (s : String) : Bool :=
  pat.any (fun p => infxOf (lowerList p.data) (lowerList s.data))

/-! ## HTML document model (BeautifulSoup tree) -/

/-- An HTML node: an element with tag, attribute list and children, or a
text node (`NavigableString`). -/
inductive Node where
  | elem (tag : String) (attrs : List (String × String)) (children : List Node)
  | text (s : String)
deriving Repr

mutual

/-- All text-node contents of a subtree, in document order. -/
def textsOf : Node → List String
  | .text s => [s]
  | .elem _ _ cs => textsOfList cs

/-- All text-node contents of a forest, in document order. -/
def textsOfList : List Node → List String
  | [] => []
  | n :: ns => textsOf n ++ textsOfList ns

end

/-- BeautifulSoup `get_text(strip=True)`: concatenation of each text node
stripped. -/
def getTextStrip (n : Node) : String := String.join ((textsOf n).map pyStrip)

/-- BeautifulSoup `get_text()` with no stripping. -/
def getTextRaw (n : Node) : String := String.join (textsOf n)

mutual

/-- Matching text nodes of a subtree paired with their parent node, in
document order: models `soup.find_all(string=re.compile(pat, re.IGNORECASE))`
together with taking each hit's `.parent`. -/
def findTextsNode (pat : List String) : Node → List (String × Node)
  | .text _ => []
  | .elem t a cs => findTextsList pat (.elem t a cs) cs

/-- Matching text nodes of a forest whose members share `parent`. -/
def findTextsList (pat : List String) (parent : Node) : List Node → List (String × Node)
  | [] => []
  | n :: ns =>
      (match n with
       | .text s => if patMatch pat s then [(s, parent)] else []
       | .elem t a cs => findTextsList pat (.elem t a cs) cs)
      ++ findTextsList pat parent ns

end

/-- `find_all(string=...)` on a soup/element: matches among descendants; a
top-level text node's parent is the soup object itself. -/
def findMatchingTexts (pat : List String) (soup : Node) : List (String × Node) :=
  match soup with
  | .text _ => []
  | .elem t a cs => findTextsList pat (.elem t a cs) cs

/-! ## CSS selector engine (the subset the source's selectors use) -/

/-- An attribute condition of a simple selector. -/
inductive AttrTest where
  | present (key : String)
  | eqv (key val : String)
  | substr (key val : String)
deriving Repr, DecidableEq

/-- A simple selector: optional tag name, `.class` tokens, attribute tests. -/
structure SimpleSel where
  tag : Option String
  classes : List String
  attrs : List AttrTest
deriving Repr, DecidableEq

/-- A (possibly compound, descendant-combinator) CSS selector: `ancs` are the
earlier simple selectors, `target` the final one that the returned element
must match. -/
structure CssSel where
  ancs : List SimpleSel
  target : SimpleSel
deriving Repr, DecidableEq

/-- A single-level selector with a tag and attribute tests. -/
def css1 (t : String) (ats : List AttrTest) : CssSel :=
  ⟨[], ⟨some t, [], ats⟩⟩

/-- First value of an attribute key. -/
def getAttr (attrs : List (String × String)) (k : String) : Option String :=
  match attrs.find? (fun kv => kv.1 == k) with
  | some kv => some kv.2
  | none => none

/-- Evaluate one attribute test against an element's attributes.  CSS
`[k*="v"]` is substring match on the raw attribute value and never matches an
empty needle. -/
def attrTestOk (attrs : List (String × String)) : AttrTest → Bool
  | .present k => (getAttr attrs k).isSome
  | .eqv k v =>
      match getAttr attrs k with
      | some w => w == v
      | none => false
  | .substr k v =>
      !(v == "") &&
      (match getAttr attrs k with
       | some w => strContains w v
       | none => false)

/-- Does an element (tag, attrs) match a simple selector. -/
def matchesSimple (s : SimpleSel) (tag : String) (attrs : List (String × String)) : Bool :=
  (match s.tag with
   | none => true
   | some t => t == tag)
  && s.classes.all (fun c =>
       match getAttr attrs "class" with
       | some v => (classTokens v).contains c
       | none => false)
  && s.attrs.all (attrTestOk attrs)

/-- Element ancestors seen so far (outermost first), as tag/attr pairs. -/
abbrev AncInfo := List (String × List (String × String))

/-- Do the ancestor simple selectors embed, in order, into the ancestor
chain (descendant combinator)?  Greedy scan, equivalent to existence of an
order-preserving embedding. -/
def ancChainMatches : List SimpleSel → AncInfo → Bool
  | [], _ => true
  | _ :: _, [] => false
  | s :: ss, a :: rest =>
      if matchesSimple s a.1 a.2 then ancChainMatches ss rest
      else ancChainMatches (s :: ss) rest

mutual

/-- All elements of a subtree matching the selector, in document order. -/
def selectNode (sel : CssSel) (A : AncInfo) : Node → List Node
  | .text _ => []
  | .elem t a cs =>
      (if matchesSimple sel.target t a && ancChainMatches sel.ancs A then
         [Node.elem t a cs]
       else [])
      ++ selectChildren sel (A ++ [(t, a)]) cs

/-- All elements of a forest matching the selector, in document order. -/
def selectChildren (sel : CssSel) (A : AncInfo) : List Node → List Node
  | [] => []
  | n :: ns => selectNode sel A n ++ selectChildren sel A ns

end

/-- BeautifulSoup `soup.select(sel)`: all matching descendants of the given
soup/element, in document order (the root itself is not a candidate). -/
def selectAll (soup : Node) (sel : CssSel) : List Node :=
  match soup with
  | .text _ => []
  | .elem _ _ cs => selectChildren sel [] cs

/-- BeautifulSoup `soup.select_one(sel)`: first match in document order. -/
def selectOne (soup : Node) (sel : CssSel) : Option Node :=
  (selectAll soup sel).head?

/-! ## Multi-selector field resolution (`extract_with_multiple_selectors`,
`extract_offers_with_config`) -/

/-- A selector-spec entry as the source's loop distinguishes them: a string
containing `:contains("...")` (the tag before the pseudo-selector is ignored
by the code, which only extracts the quoted pattern), or a structural CSS
query handed to `select_one`/`select`. -/
inductive Sel where
  | structural (q : CssSel)
  | contains (pat : List String)
deriving Repr

/-- `extract_with_multiple_selectors`: try the expressions in list order.  A
`:contains` expression returns the first matching text node's parent text
(a found string always has a parent in a parsed tree); a structural
expression returns its first match's trimmed text when that text is non-empty
and not the literal `N/A`, and otherwise falls through to the next
expression.  If nothing fires the sentinel `N/A` is returned. -/
def extract_with_multiple_selectors (soup : Node) : List Sel → String
  | [] => "N/A"
  | Sel.contains pat :: rest =>
      match findMatchingTexts pat soup with
      | (_, par) :: _ => getTextStrip par
      | [] => extract_with_multiple_selectors soup rest
  | Sel.structural q :: rest =>
      match selectOne soup q with
      | some e =>
          let t := getTextStrip e
          if t ≠ "" ∧ t ≠ "N/A" then t else extract_with_multiple_selectors soup rest
      | none => extract_with_multiple_selectors soup rest

/-- The value a single selector-spec entry yields, if any: the success
condition of one iteration of `extract_with_multiple_selectors`. -/
def selResult (soup : Node) : Sel → Option String
  | Sel.contains pat =>
      match findMatchingTexts pat soup with
      | (_, par) :: _ => some (getTextStrip par)
      | [] => none
  | Sel.structural q =>
      match selectOne soup q with
      | some e =>
          let t := getTextStrip e
          if t ≠ "" ∧ t ≠ "N/A" then some t else none
      | none => none

/-- One selector's contribution to the offers accumulator, mirroring the body
of the loop in `extract_offers_with_config`: a `:contains` expression appends
every matching text node's own stripped text (no deduplication), a structural
expression appends every matching element's text not already collected. -/
def offersStep (soup : Node) (acc : List String) : Sel → List String
  | Sel.contains pat =>
      (findMatchingTexts pat soup).foldl
        (fun a e => if pyStrip e.1 ≠ "" then a ++ [pyStrip e.1] else a) acc
  | Sel.structural q =>
      (selectAll soup q).foldl
        (fun a e =>
          let t := getTextStrip e
          if t ≠ "" ∧ ¬ a.contains t then a ++ [t] else a) acc

/-- `extract_offers_with_config`: every selector is evaluated and all results
are accumulated. -/
def extract_offers_with_config (soup : Node) (sels : List Sel) : List String :=
  sels.foldl (offersStep soup) []

/-! ## `extract_delivery_info` and `extract_availability` -/

/-- A selector of the delivery/availability loops: their `:contains`
branches ignore the selector string entirely and search one fixed literal
alternation. -/
inductive DSel where
  | structural (q : CssSel)
  | containsAny (pat : List String)

/-- The shared loop of `extract_delivery_info`/`extract_availability`: a
structural hit returns its text unconditionally; a text hit returns the
matched text node's OWN stripped text (not its parent's). -/
def dLoop (soup : Node) : List DSel → String
  | [] => "N/A"
  | DSel.structural q :: rest =>
      match selectOne soup q with
      | some e => getTextStrip e
      | none => dLoop soup rest
  | DSel.containsAny pat :: rest =>
      match findMatchingTexts pat soup with
      | (s, _) :: _ => pyStrip s
      | [] => dLoop soup rest

/-- The fixed regex of both delivery `:contains` selectors. -/
def deliveryPat : List String := ["delivery", "shipping"]

/-- The structural delivery selectors, in order. -/
def deliveryStructSels : List CssSel :=
  [css1 "div" [AttrTest.substr "class" "delivery"],
   css1 "span" [AttrTest.substr "class" "delivery"],
   css1 "div" [AttrTest.substr "class" "shipping"]]

/-- `extract_delivery_info`. -/
def extract_delivery_info (soup : Node) : String :=
  dLoop soup
    (deliveryStructSels.map DSel.structural ++
     [DSel.containsAny deliveryPat, DSel.containsAny deliveryPat])

/-- The fixed regex of both availability `:contains` selectors. -/
def availabilityPat : List String := ["bought", "stock", "available"]

/-- The structural availability selectors, in order. -/
def availabilityStructSels : List CssSel :=
  [css1 "span" [AttrTest.substr "class" "stock"],
   css1 "div" [AttrTest.substr "class" "availability"]]

/-- `extract_availability`. -/
def extract_availability (soup : Node) : String :=
  dLoop soup
    (availabilityStructSels.map DSel.structural ++
     [DSel.containsAny availabilityPat, DSel.containsAny availabilityPat])

/-! ## The raw field map and the cleaning rules (`clean_product_data`) -/

/-- One candidate's extracted fields (a Python dict in the source; the
`scraped_at` timestamp is omitted as a wall-clock value).  The emergency
record carries no `search_query` key, which sinks read back as `N/A`; it is
stored as `N/A` here. -/
structure RawFieldMap where
  index : Nat
  name : String
  current_price : String
  original_price : String
  rating : String
  reviews : String
  discount : String
  offers : List String
  image_url : String
  delivery : String
  availability : String
  search_query : String
  site : String
deriving Repr, DecidableEq

/-- The boilerplate prefixes stripped from names (also the junk patterns
validation rejects). -/
def prefixes_to_remove : List String :=
  ["Add to Compare", "Sponsored", "SponsoredCason",
   "SponsoredCason Wireless", "SponsoredCason Wireless + Wired"]

/-- One iteration of the prefix-stripping loop. -/
def stripStep (n p : String) : String :=
  if pyStartsWith n p then pyStrip (pyDrop n p.length) else n

/-- The name-cleaning block: strip the raw name, then strip each known
prefix in turn. -/
def stripPrefixes (s : String) : String :=
  prefixes_to_remove.foldl stripStep (pyStrip s)

/-- A digit or comma (the class `[\d,]` of the price regex). -/
def isPriceChar (c : Char) : Bool := c.isDigit || c = ','

/-- Leftmost maximal run of characters satisfying `p`:
`re.search(r'X+', s)` for a character class `X`. -/
def firstRun (p : Char → Bool) : List Char → Option (List Char)
  | [] => none
  | c :: cs => if p c then some (c :: cs.takeWhile p) else firstRun p cs

/-- The greedy token of `\d+\.?\d*` starting at digit `c`. -/
def digitsDotTok (c : Char) (cs : List Char) : List Char :=
  let ds := cs.takeWhile Char.isDigit
  match cs.dropWhile Char.isDigit with
  | x :: rest2 =>
      if x = '.' then c :: ds ++ '.' :: rest2.takeWhile Char.isDigit else c :: ds
  | [] => c :: ds

/-- `re.search(r'(\d+\.?\d*)', s)`: leftmost number, integer or decimal. -/
def ratingRun : List Char → Option (List Char)
  | [] => none
  | c :: cs => if c.isDigit then some (digitsDotTok c cs) else ratingRun cs

/-- The name-cleaning rule (applied only when the name is truthy). -/
def cleanName (s : String) : String :=
  if s = "" then s else stripPrefixes s

/-- The price-cleaning rule: currency sign plus first digit/comma run, else
the `N/A` sentinel (applied only when the price is truthy). -/
def cleanPrice (s : String) : String :=
  if s = "" then s
  else
    match firstRun isPriceChar s.data with
    | some r => String.mk ('₹' :: r)
    | none => "N/A"

/-- The rating-cleaning rule: first number found, else `N/A`. -/
def cleanRating (s : String) : String :=
  if s = "" then s
  else
    match ratingRun s.data with
    | some r => String.mk r
    | none => "N/A"

/-- The review-count-cleaning rule: first digit run found, else `N/A`. -/
def cleanReviews (s : String) : String :=
  if s = "" then s
  else
    match firstRun Char.isDigit s.data with
    | some r => String.mk r
    | none => "N/A"

/-- `clean_product_data`: the four blocks update disjoint keys of the dict,
so the sequential in-place updates are translated field-wise. -/
def clean_product_data (m : RawFieldMap) : RawFieldMap :=
  { m with
    name := cleanName m.name,
    current_price := cleanPrice m.current_price,
    rating := cleanRating m.rating,
    reviews := cleanReviews m.reviews }

/-! ## Validation (`validate_product_data`) -/

/-- The checks of `validate_product_data`, run on the already-cleaned map. -/
def validate_checks (c : RawFieldMap) (site_key : String) : Bool :=
  if c.name = "" ∨ c.name = "N/A" then false
  else if prefixes_to_remove.any (fun p => strContains c.name p) then false
  else if c.name.length < 5 then false
  else if pyIsDigit c.name then false
  else if pyStartsWith c.name "₹" then false
  else if site_key = "amazon" then
    if c.name.length < 10 then false else true
  else if site_key = "flipkart" then
    if c.name.length < 5 then false else true
  else if site_key = "sathya" then
    if c.name.length < 2 then false
    else if pyStartsWith c.name "₹" then false
    else true
  else if site_key = "meesho" then
    if c.name.length < 3 then false else true
  else true

/-- `validate_product_data`.  The Python function first mutates the caller's
dict in place through `clean_product_data`; the embedding makes this explicit
by returning the caller-visible map together with the verdict. -/
def validate_product_data (m : RawFieldMap) (site_key : String) : RawFieldMap × Bool :=
  let c := clean_product_data m
  (c, validate_checks c site_key)

/-! ## Regex scanners of the fallback tiers -/

/-- `re.search(r'₹?([\d,]+)', s).group(0)`: the leftmost digit/comma run,
preceded by the currency sign when it is directly adjacent. -/
def priceSearch : List Char → Option (List Char)
  | [] => none
  | c :: cs =>
      if isPriceChar c then some (c :: cs.takeWhile isPriceChar)
      else if c = '₹' then
        match cs with
        | d :: ds =>
            if isPriceChar d then some ('₹' :: d :: ds.takeWhile isPriceChar)
            else priceSearch cs
        | [] => none
      else priceSearch cs

/-- Does `out of 5`, `/5` or `star(s)` begin here (case-insensitive)?  The
suffix of the rating regex; none of the alternatives begins with a digit, a
dot or whitespace, so the greedy number token never needs backtracking. -/
def ratingSuffixOk (l : List Char) : Bool :=
  pfxOf (lowerList "out of 5".data) (lowerList l) ||
  pfxOf (lowerList "/5".data) (lowerList l) ||
  pfxOf (lowerList "star".data) (lowerList l)

/-- `re.search(r'(\d+\.?\d*)\s*(?:out of 5|/5|stars?)', s, re.I).group(1)`. -/
def ratingSearch : List Char → Option (List Char)
  | [] => none
  | c :: cs =>
      if c.isDigit then
        let tok := digitsDotTok c cs
        let rest := (c :: cs).drop tok.length
        if ratingSuffixOk (rest.dropWhile Char.isWhitespace) then some tok
        else ratingSearch cs
      else ratingSearch cs

/-- The number of characters matched by `(?:ratings?|reviews?)` at the head
of the list, if any (alternatives tried in regex order, optional `s`
greedy). -/
def reviewsSuffixLen (l : List Char) : Option Nat :=
  let low := lowerList l
  if pfxOf "ratings".data low then some 7
  else if pfxOf "rating".data low then some 6
  else if pfxOf "reviews".data low then some 7
  else if pfxOf "review".data low then some 6
  else none

/-- `re.search(r'(\d+)\s*(?:ratings?|reviews?)', s, re.I).group(0)`: the whole
matched text, digits plus whitespace plus the suffix word, in original
case. -/
def reviewsSearch : List Char → Option (List Char)
  | [] => none
  | c :: cs =>
      if c.isDigit then
        let ds := c :: cs.takeWhile Char.isDigit
        let rest := (c :: cs).drop ds.length
        let wsp := rest.takeWhile Char.isWhitespace
        let rest2 := rest.drop wsp.length
        match reviewsSuffixLen rest2 with
        | some n => some (ds ++ wsp ++ rest2.take n)
        | none => reviewsSearch cs
      else reviewsSearch cs

/-- Does `re.search(r'₹?\d+', line)` succeed?  The sign is optional, so this
holds exactly when the line contains a digit. -/
def hasDigit (l : List Char) : Bool := l.any Char.isDigit

/-- Does `re.search(r'\d+\s*(?:stars?|ratings?)', line, re.I)` succeed? -/
def anchor2 : List Char → Bool
  | [] => false
  | c :: cs =>
      if c.isDigit then
        let ds := c :: cs.takeWhile Char.isDigit
        let rest := ((c :: cs).drop ds.length).dropWhile Char.isWhitespace
        if pfxOf (lowerList "star".data) (lowerList rest) ||
           pfxOf (lowerList "rating".data) (lowerList rest) then true
        else anchor2 cs
      else anchor2 cs

/-- A chunk-anchor line of the aggressive tier: price-like or rating-like. -/
def lineAnchor (s : String) : Bool := hasDigit s.data || anchor2 s.data

/-- Does the line start with a digit (`re.match(r'^\d+', line)`)? -/
def startsWithDigit (s : String) : Bool :=
  match s.data with
  | c :: _ => c.isDigit
  | [] => false

/-! ## Tier 2: `extract_basic_product_data` and `try_alternative_parsing` -/

/-- `extract_basic_product_data`: minimal extraction from one element. -/
def extract_basic_product_data (element : Node) (index : Nat) (site_key : String)
    (search_query : Option String) : Option RawFieldMap :=
  let text_content := getTextStrip element
  if text_content.length < 10 then none
  else
    let current_price :=
      match priceSearch text_content.data with
      | some r => String.mk r
      | none => "N/A"
    let rating :=
      match ratingSearch text_content.data with
      | some r => String.mk r
      | none => "N/A"
    let lines := ((pySplit text_content '\n').map pyStrip).filter (fun l => l ≠ "")
    let name0 :=
      match lines with
      | l :: _ => l
      | [] => "N/A"
    let name :=
      if pyStartsWith name0 "₹" ∨ pyStartsWith name0 "(" ∨ name0.length < 3 then
        match lines with
        | _ :: l2 :: _ => l2
        | _ => "N/A"
      else name0
    some
      { index := index, name := pyTake name 100, current_price := current_price,
        original_price := "N/A", rating := rating, reviews := "N/A",
        discount := "N/A", offers := [], image_url := "N/A", delivery := "N/A",
        availability := "N/A",
        search_query :=
          match search_query with
          | some q => q
          | none => "N/A",
        site := site_key }

/-- The fixed fallback container queries of `try_alternative_parsing`. -/
def alternative_selectors : List CssSel :=
  [css1 "div" [AttrTest.substr "class" "product"],
   css1 "div" [AttrTest.substr "class" "item"],
   css1 "div" [AttrTest.substr "class" "card"],
   css1 "div" [AttrTest.present "data-id"],
   css1 "div" [AttrTest.substr "class" "search"],
   css1 "div" [AttrTest.substr "class" "result"],
   css1 "article" [],
   css1 "section" []]

/-- The per-element pipeline of `try_alternative_parsing` over the (at most
ten) enumerated elements of the winning query: extract, validate (which
cleans the map in place), and append accepted records. -/
def processAltAux (site_key : String) (sq : Option String) :
    List (Nat × Node) → List RawFieldMap → List RawFieldMap
  | [], ps => ps
  | (i, e) :: rest, ps =>
      match extract_basic_product_data e (i + 1) site_key sq with
      | none => processAltAux site_key sq rest ps
      | some pd =>
          let r := validate_product_data pd site_key
          if r.2 then processAltAux site_key sq rest (ps ++ [r.1])
          else processAltAux site_key sq rest ps

/-- Process the matched elements of the winning query (`elements[:10]`,
enumerated). -/
def processAlt (site_key : String) (sq : Option String) (ps : List RawFieldMap)
    (elems : List Node) : List RawFieldMap :=
  processAltAux site_key sq elems.enum ps

/-- The query loop of `try_alternative_parsing`: the first selector with any
match wins and the loop breaks after processing it. -/
def altLoop (doc : Node) (site_key : String) (sq : Option String)
    (ps : List RawFieldMap) : List CssSel → List RawFieldMap
  | [] => ps
  | s :: rest =>
      match selectAll doc s with
      | [] => altLoop doc site_key sq ps rest
      | e :: es => processAlt site_key sq ps ((e :: es).take 10)

/-- `try_alternative_parsing` (Tier 2, the Generic Extractor). -/
def try_alternative_parsing (doc : Node) (site_key : String) (sq : Option String)
    (ps : List RawFieldMap) : List RawFieldMap :=
  altLoop doc site_key sq ps alternative_selectors

/-! ## Tier 3: `try_aggressive_parsing` and `extract_from_text_chunk` -/

mutual

/-- Drop every `script`/`style` element of a subtree (`decompose`). -/
def stripScriptStyle : Node → Node
  | .text s => .text s
  | .elem t a cs => .elem t a (stripScriptStyleList cs)

/-- Drop every `script`/`style` element of a forest. -/
def stripScriptStyleList : List Node → List Node
  | [] => []
  | n :: ns =>
      (match n with
       | .elem t _ _ =>
           if t = "script" ∨ t = "style" then [] else [stripScriptStyle n]
       | .text s => [Node.text s])
      ++ stripScriptStyleList ns

end

/-- The line filter of the aggressive tier: non-empty trimmed lines longer
than five characters. -/
def splitLongLines (text : String) : List String :=
  ((pySplit text '\n').map pyStrip).filter (fun l => l ≠ "" ∧ l.length > 5)

/-- Python `'\n'.join(lines)`. -/
def joinNL (ls : List String) : String :=
  ⟨List.intercalate ['\n'] (ls.map String.data)⟩

/-- The chunking loop of `try_aggressive_parsing`: an anchor line flushes the
current chunk and starts a new one; a non-anchor line extends a chunk of
fewer than five lines; otherwise the current chunk is flushed and discarded
lines follow.  The trailing chunk is never flushed after the loop. -/
def chunkLoop : List String → List String → List String → List String
  | [], _cur, acc => acc
  | l :: ls, cur, acc =>
      if lineAnchor l then
        chunkLoop ls [l] (if cur ≠ [] then acc ++ [joinNL cur] else acc)
      else if cur ≠ [] ∧ cur.length < 5 then
        chunkLoop ls (cur ++ [l]) acc
      else
        chunkLoop ls [] (if cur ≠ [] then acc ++ [joinNL cur] else acc)

/-- The product chunks the aggressive tier derives from the visible text. -/
def product_chunks (text : String) : List String :=
  chunkLoop (splitLongLines text) [] []

/-- The name heuristic of `extract_from_text_chunk`: start from the first
line, replace it by the first later line that is longer, does not start with
the currency sign and does not start with a digit. -/
def nameFromLines (name : String) : List String → String
  | [] => name
  | l :: ls =>
      if l.length > name.length ∧ ¬ pyStartsWith l "₹" ∧ ¬ startsWithDigit l then l
      else nameFromLines name ls

/-- `extract_from_text_chunk`. -/
def extract_from_text_chunk (chunk : String) (index : Nat) (site_key : String)
    (search_query : Option String) : Option RawFieldMap :=
  let lines := ((pySplit chunk '\n').map pyStrip).filter (fun l => l ≠ "")
  match lines with
  | [] => none
  | l0 :: restLines =>
      let current_price :=
        match priceSearch chunk.data with
        | some r => String.mk r
        | none => "N/A"
      let rating :=
        match ratingSearch chunk.data with
        | some r => String.mk r
        | none => "N/A"
      let reviews :=
        match reviewsSearch chunk.data with
        | some r => String.mk r
        | none => "N/A"
      let name := nameFromLines l0 restLines
      some
        { index := index, name := pyTake name 100, current_price := current_price,
          original_price := "N/A", rating := rating, reviews := reviews,
          discount := "N/A", offers := [], image_url := "N/A", delivery := "N/A",
          availability := "N/A",
          search_query :=
            match search_query with
            | some q => q
            | none => "N/A",
          site := site_key }

/-- The chunk loop of `try_aggressive_parsing` over the (at most twenty)
enumerated chunks: only chunks longer than twenty characters are parsed. -/
def aggLoop (site_key : String) (sq : Option String) :
    List (Nat × String) → List RawFieldMap → List RawFieldMap
  | [], ps => ps
  | (i, chunk) :: rest, ps =>
      if chunk.length > 20 then
        match extract_from_text_chunk chunk (i + 1) site_key sq with
        | none => aggLoop site_key sq rest ps
        | some pd =>
            let r := validate_product_data pd site_key
            if r.2 then aggLoop site_key sq rest (ps ++ [r.1])
            else aggLoop site_key sq rest ps
      else aggLoop site_key sq rest ps

/-- `try_aggressive_parsing` (Tier 3, the Heuristic Text Extractor). -/
def try_aggressive_parsing (doc : Node) (site_key : String) (sq : Option String)
    (ps : List RawFieldMap) : List RawFieldMap :=
  let text_content := getTextRaw (stripScriptStyle doc)
  aggLoop site_key sq ((product_chunks text_content).take 20).enum ps

/-- The fallback cascade at the end of `scrape_site`: Tier 2 runs only when
the session holds no record tagged with this site, and Tier 3 only when
Tier 2 also left it empty. -/
def scrape_site_fallbacks (doc : Node) (site_key : String) (sq : Option String)
    (ps : List RawFieldMap) : List RawFieldMap :=
  if ps.isEmpty || (ps.filter (fun p => p.site == site_key)).length == 0 then
    let ps2 := try_alternative_parsing doc site_key sq ps
    if ps2.isEmpty || (ps2.filter (fun p => p.site == site_key)).length == 0 then
      try_aggressive_parsing doc site_key sq ps2
    else ps2
  else ps

/-! ## Tier 4: `emergency_extraction` -/

/-- The outcome the crawler reports for one URL; `none` for the `html` field
models a missing/empty page text (falsy in Python). -/
structure FetchResult where
  success : Bool
  html : Option Node

/-- The `result.success and result.html` gate; an outer `none` models a
thrown fetch error (the `except: continue` path). -/
def fetchOk : Option FetchResult → Option Node
  | some r => if r.success then r.html else none
  | none => none

mutual

/-- `soup.find('title')`: first `title` element in document order. -/
def findTitleNode : Node → Option Node
  | .text _ => none
  | .elem t a cs => if t = "title" then some (.elem t a cs) else findTitleList cs

/-- First `title` element of a forest. -/
def findTitleList : List Node → Option Node
  | [] => none
  | n :: ns =>
      match findTitleNode n with
      | some r => some r
      | none => findTitleList ns

end

/-- `soup.find('title')` on a parsed document. -/
def findTitle (soup : Node) : Option Node :=
  match soup with
  | .text _ => none
  | .elem _ _ cs => findTitleList cs

/-- The fixed fallback pages of `emergency_extraction`. -/
def simple_urls : List String :=
  ["https://httpbin.org/html", "https://example.com"]

/-- The placeholder record fabricated from a successfully fetched page. -/
def emergencyRecord (ps : List RawFieldMap) (page : Node) : RawFieldMap :=
  let title_text :=
    match findTitle page with
    | some t => getTextRaw t
    | none => "Emergency Product"
  { index := ps.length + 1,
    name := "Emergency Product - " ++ title_text,
    current_price := "₹999", original_price := "₹1,199", rating := "4.0",
    reviews := "Emergency extraction", discount := "17% off",
    offers := ["Emergency mode"], image_url := "N/A",
    delivery := "Standard delivery", availability := "Available",
    search_query := "N/A", site := "emergency" }

/-- The URL loop of `emergency_extraction`: on the first successful fetch the
placeholder record is appended and the loop breaks. -/
def emergencyLoop (fetch : String → Option FetchResult) (ps : List RawFieldMap) :
    List String → List RawFieldMap
  | [] => ps
  | u :: rest =>
      match fetchOk (fetch u) with
      | some page => ps ++ [emergencyRecord ps page]
      | none => emergencyLoop fetch ps rest

/-- `emergency_extraction`, parameterised by the external page fetcher. -/
def emergency_extraction (fetch : String → Option FetchResult)
    (ps : List RawFieldMap) : List RawFieldMap :=
  emergencyLoop fetch ps simple_urls

/-- The call site in `main`: emergency extraction runs once, only when the
whole session produced zero records. -/
def main_emergency_step (fetch : String → Option FetchResult)
    (ps : List RawFieldMap) : List RawFieldMap :=
  if ps.length = 0 then emergency_extraction fetch ps else ps

/-! ## Concrete documents and field maps used by the witnesses and
counterexamples -/

/-- Build a field map with the given name/price/rating/reviews and default
sentinels elsewhere. -/
def mkMap (site nm pr ra re : String) : RawFieldMap :=
  { index := 1, name := nm, current_price := pr, original_price := "N/A",
    rating := ra, reviews := re, discount := "N/A", offers := [],
    image_url := "N/A", delivery := "N/A", availability := "N/A",
    search_query := "N/A", site := site }

/-- A fragment with two distinct offer elements. -/
def c1soup : Node :=
  Node.elem "[document]" []
    [Node.elem "div" [("class", "offerA")] [Node.text "Offer A"],
     Node.elem "div" [("class", "offerB")] [Node.text "Offer B"]]

/-- Selector matching the first offer element. -/
def c1selA : Sel := Sel.structural (css1 "div" [AttrTest.substr "class" "offerA"])

/-- Selector matching the second offer element. -/
def c1selB : Sel := Sel.structural (css1 "div" [AttrTest.substr "class" "offerB"])

/-- A fragment with a whitespace-only first candidate, a real value, and a
spy element a later selector would match. -/
def c1wsoup : Node :=
  Node.elem "[document]" []
    [Node.elem "div" [("class", "empty")] [Node.text "   "],
     Node.elem "span" [("class", "good")] [Node.text " Hello "],
     Node.elem "span" [("class", "spy")] [Node.text "World"]]

/-- An earlier selector that matches only the whitespace element. -/
def c1wpre : List Sel :=
  [Sel.structural (css1 "div" [AttrTest.substr "class" "empty"])]

/-- The first succeeding selector. -/
def c1wsel : Sel := Sel.structural (css1 "span" [AttrTest.substr "class" "good"])

/-- A spy selector appended after the succeeding one. -/
def c1wrest : List Sel :=
  [Sel.structural (css1 "span" [AttrTest.substr "class" "spy"])]

/-- The enclosing element of the matched delivery text node. -/
def c2pEl : Node :=
  Node.elem "p" [] [Node.text " Fast delivery ", Node.elem "b" [] [Node.text "₹99"]]

/-- A fragment whose delivery text node sits beside a price, so the node's
own text differs from its enclosing element's text. -/
def c2frag : Node := Node.elem "[document]" [] [c2pEl]

/-- The span holding an offer-like text for the containment witness. -/
def c2wspan : Node := Node.elem "span" [] [Node.text " 5% off "]

/-- A fragment for the resolver-containment witness. -/
def c2wsoup : Node := Node.elem "[document]" [] [c2wspan]

/-- A structural selector with no match in `c2wsoup`. -/
def c2wpre : List Sel := [Sel.structural (css1 "div" [])]

/-- A fragment whose availability text node has a sibling element. -/
def c2afrag : Node :=
  Node.elem "[document]" []
    [Node.elem "div" [] [Node.text "In stock now", Node.elem "i" [] [Node.text "!"]]]

/-- A raw map whose name strips to a string that again starts with a
strippable prefix. -/
def c3ex : RawFieldMap := mkMap "amazon" "Sponsored Sponsored Watch" "N/A" "N/A" "N/A"

/-- A clean, prefix-free raw map used to witness the amended idempotence. -/
def c3wit : RawFieldMap := mkMap "amazon" "Steel Bottle" "₹ 450" "4.1 stars" "87 reviews"

/-- Raw map with the spec's example price text. -/
def c4a : RawFieldMap := mkMap "amazon" "Test Product" "₹ 12,999 (incl. taxes)" "N/A" "N/A"

/-- Raw map with a price text containing no digit or comma. -/
def c4b : RawFieldMap := mkMap "amazon" "Test Product" "no price" "N/A" "N/A"

/-- Record whose name is the sponsorship label. -/
def c5a : RawFieldMap := mkMap "flipkart" "Sponsored" "N/A" "N/A" "N/A"

/-- Record whose name is purely numeric. -/
def c5b : RawFieldMap := mkMap "flipkart" "12345" "N/A" "N/A" "N/A"

/-- Record whose name starts with the currency sign. -/
def c5c : RawFieldMap := mkMap "flipkart" "₹499" "N/A" "N/A" "N/A"

/-- Record with a legitimate product name. -/
def c5d : RawFieldMap :=
  mkMap "flipkart" "Noise ColorFit Pulse 2 Smartwatch" "N/A" "N/A" "N/A"

/-- A cleaned-name length-3 record for the lenient-profile witness. -/
def c6w1 : RawFieldMap := mkMap "sathya" "Abc" "N/A" "N/A" "N/A"

/-- A cleaned-name length-7 record for the strict-profile witness. -/
def c6w2 : RawFieldMap := mkMap "amazon" "Abcdefg" "N/A" "N/A" "N/A"

/-- A document matching only the third fallback container query, whose sole
candidate is rejected (its text is shorter than ten characters). -/
def c7doc : Node :=
  Node.elem "[document]" []
    [Node.elem "div" [("class", "cardx")] [Node.text "Junk"]]

/-- The third fallback container query (`div[class*="card"]`). -/
def c7sel3 : CssSel := css1 "div" [AttrTest.substr "class" "card"]

/-- The first two fallback container queries. -/
def c7pre : List CssSel :=
  [css1 "div" [AttrTest.substr "class" "product"],
   css1 "div" [AttrTest.substr "class" "item"]]

/-- The remaining fallback container queries after the winning one. -/
def c7rest : List CssSel :=
  [css1 "div" [AttrTest.present "data-id"],
   css1 "div" [AttrTest.substr "class" "search"],
   css1 "div" [AttrTest.substr "class" "result"],
   css1 "article" [],
   css1 "section" []]

/-- An accepted amazon-tagged record already in the session. -/
def c7rec : RawFieldMap :=
  mkMap "amazon" "Noise ColorFit Pulse 2 Smartwatch" "₹1,299" "4.2" "230"

/-- The visible text of the spec's heuristic-chunking example. -/
def c8text : String := "₹799\nWireless Mouse\n4.2 out of 5\n230 ratings"

/-- A document whose visible text is exactly the example text. -/
def c8doc : Node := Node.elem "[document]" [] [Node.text c8text]

/-- A fetched fallback page with a title. -/
def c9page : Node :=
  Node.elem "html" []
    [Node.elem "head" [] [Node.elem "title" [] [Node.text "Example Domain"]]]

/-- A fetcher that fails on the first fallback URL and succeeds on the
second. -/
def c9fetch : String → Option FetchResult := fun u =>
  if u = "https://example.com" then some ⟨true, some c9page⟩ else none

/-- A raw map that validation rejects while still rewriting every cleanable
field of the caller's dict. -/
def c10ex : RawFieldMap :=
  mkMap "amazon" "Sponsored" "Rs. 1,299 only" "4.2 out of 5" "1,234 ratings"

/-! ## Helper lemmas on the string primitives -/

/-- Dropping a satisfied-prefix twice is the same as once. -/
theorem dropWhile_self {α : Type} (p : α → Bool) (l : List α) :
    (l.dropWhile p).dropWhile p = l.dropWhile p := by
  induction l with
  | nil => rfl
  | cons c cs ih =>
      by_cases h : p c
      · simp [List.dropWhile_cons, h, ih]
      · simp [List.dropWhile_cons, h]

/-- The head of a `dropWhile` result fails the predicate. -/
theorem dropWhile_head_cases {α : Type} (p : α → Bool) (l : List α) :
    l.dropWhile p = [] ∨ ∃ c cs, l.dropWhile p = c :: cs ∧ p c = false := by
  induction l with
  | nil => exact Or.inl rfl
  | cons c cs ih =>
      by_cases h : p c
      · simpa [List.dropWhile_cons, h] using ih
      · exact Or.inr ⟨c, cs, by simp [List.dropWhile_cons, h], by simpa using h⟩

/-- `dropWhile` over an append. -/
theorem dropWhile_append_split {α : Type} (p : α → Bool) (l1 l2 : List α) :
    (l1 ++ l2).dropWhile p =
      if (l1.dropWhile p).isEmpty then l2.dropWhile p else l1.dropWhile p ++ l2 := by
  induction l1 with
  | nil => simp
  | cons a as ih =>
      by_cases h : p a
      · simpa [List.dropWhile_cons, h] using ih
      · simp [List.dropWhile_cons, h]

/-- A trimmed list starts with a non-whitespace character (or is empty). -/
theorem stripList_frontclean (l : List Char) :
    (stripList l).dropWhile Char.isWhitespace = stripList l := by
  rcases dropWhile_head_cases Char.isWhitespace l with h | ⟨c, cs, h, hc⟩
  · simp [stripList, h]
  · have hs : stripList l =
        ((cs.reverse ++ [c]).dropWhile Char.isWhitespace).reverse := by
      simp [stripList, h]
    rw [dropWhile_append_split] at hs
    by_cases he : ((cs.reverse).dropWhile Char.isWhitespace).isEmpty
    · rw [if_pos he] at hs
      rw [hs]
      simp [List.dropWhile_cons, hc]
    · rw [if_neg he] at hs
      rw [hs]
      simp [List.dropWhile_cons, hc]

/-- Trimming is idempotent. -/
theorem stripList_idem (l : List Char) : stripList (stripList l) = stripList l := by
  have h1 : stripList (stripList l) =
      (((stripList l).dropWhile Char.isWhitespace).reverse.dropWhile
        Char.isWhitespace).reverse := rfl
  rw [h1, stripList_frontclean]
  have h2 : (stripList l).reverse =
      ((l.dropWhile Char.isWhitespace).reverse).dropWhile Char.isWhitespace := by
    simp [stripList]
  rw [h2, dropWhile_self]
  simp [stripList]

/-- Python strip is idempotent. -/
theorem pyStrip_idem (s : String) : pyStrip (pyStrip s) = pyStrip s := by
  show (⟨stripList (stripList s.data)⟩ : String) = ⟨stripList s.data⟩
  rw [stripList_idem]

/-- Members of a `takeWhile` result satisfy the predicate. -/
theorem takeWhile_forall {α : Type} (p : α → Bool) (l : List α) :
    ∀ a ∈ l.takeWhile p, p a = true := by
  induction l with
  | nil => intro a ha; simp [List.takeWhile] at ha
  | cons b bs ih =>
      intro a ha
      rw [List.takeWhile_cons] at ha
      by_cases hb : p b = true
      · rw [if_pos hb] at ha
        rcases List.mem_cons.mp ha with rfl | ha
        · exact hb
        · exact ih a ha
      · rw [if_neg hb] at ha
        cases ha

/-- `takeWhile` keeps an all-satisfying list whole. -/
theorem takeWhile_all {α : Type} (p : α → Bool) (l : List α)
    (h : ∀ a ∈ l, p a = true) : l.takeWhile p = l := by
  induction l with
  | nil => rfl
  | cons b bs ih =>
      rw [List.takeWhile_cons, if_pos (h b (List.mem_cons_self b bs))]
      rw [ih (fun a ha => h a (List.mem_cons_of_mem b ha))]

/-- `takeWhile` over an all-satisfying block followed by a failing element. -/
theorem takeWhile_append_stop {α : Type} (p : α → Bool) (l1 : List α) (x : α)
    (l2 : List α) (h1 : ∀ a ∈ l1, p a = true) (h2 : p x = false) :
    (l1 ++ x :: l2).takeWhile p = l1 := by
  induction l1 with
  | nil => simp [List.takeWhile_cons, h2]
  | cons a as ih =>
      rw [List.cons_append, List.takeWhile_cons,
        if_pos (h1 a (List.mem_cons_self a as))]
      rw [ih (fun b hb => h1 b (List.mem_cons_of_mem a hb))]

/-- `dropWhile` over an all-satisfying block followed by a failing element. -/
theorem dropWhile_append_stop {α : Type} (p : α → Bool) (l1 : List α) (x : α)
    (l2 : List α) (h1 : ∀ a ∈ l1, p a = true) (h2 : p x = false) :
    (l1 ++ x :: l2).dropWhile p = x :: l2 := by
  induction l1 with
  | nil => simp [List.dropWhile_cons, h2]
  | cons a as ih =>
      rw [List.cons_append, List.dropWhile_cons,
        if_pos (h1 a (List.mem_cons_self a as))]
      exact ih (fun b hb => h1 b (List.mem_cons_of_mem a hb))

/-- Shape of a successful `firstRun`: non-empty, and every character
satisfies the class. -/
theorem firstRun_sound (p : Char → Bool) (l r : List Char)
    (h : firstRun p l = some r) :
    ∃ c cs, r = c :: cs ∧ p c = true ∧ ∀ a ∈ cs, p a = true := by
  induction l with
  | nil => simp [firstRun] at h
  | cons b bs ih =>
      by_cases hb : p b = true
      · rw [firstRun, if_pos hb] at h
        exact ⟨b, bs.takeWhile p, (Option.some.injEq _ _).mp h |>.symm, hb,
          takeWhile_forall p bs⟩
      · rw [firstRun, if_neg hb] at h
        exact ih h

/-- `firstRun` returns an all-satisfying list whole. -/
theorem firstRun_fixed (p : Char → Bool) (c : Char) (cs : List Char)
    (hc : p c = true) (hcs : ∀ a ∈ cs, p a = true) :
    firstRun p (c :: cs) = some (c :: cs) := by
  rw [firstRun, if_pos hc, takeWhile_all p cs hcs]

/-- `dropWhile` empties an all-satisfying list. -/
theorem dropWhile_all {α : Type} (p : α → Bool) (l : List α)
    (h : ∀ a ∈ l, p a = true) : l.dropWhile p = [] := by
  induction l with
  | nil => rfl
  | cons b bs ih =>
      rw [List.dropWhile_cons, if_pos (h b (List.mem_cons_self b bs))]
      exact ih fun a ha => h a (List.mem_cons_of_mem b ha)

/-- A string built from a cons list is not the empty string. -/
theorem string_mk_ne_empty (c : Char) (l : List Char) : (⟨c :: l⟩ : String) ≠ "" := by
  intro h
  exact List.noConfusion (congrArg String.data h)

/-! ## Idempotence lemmas for the cleaning rules -/

/-- Price cleaning is idempotent. -/
theorem cleanPrice_idem (s : String) : cleanPrice (cleanPrice s) = cleanPrice s := by
  by_cases h : s = ""
  · subst h; rfl
  · cases hfr : firstRun isPriceChar s.data with
    | none =>
        have hs : cleanPrice s = "N/A" := by
          simp only [cleanPrice, if_neg h, hfr]
        rw [hs]; decide
    | some r =>
        obtain ⟨c, cs, rfl, hc, hcs⟩ := firstRun_sound _ _ _ hfr
        have hs : cleanPrice s = String.mk ('₹' :: c :: cs) := by
          simp only [cleanPrice, if_neg h, hfr]
        rw [hs]
        have hne : String.mk ('₹' :: c :: cs) ≠ "" := string_mk_ne_empty _ _
        have h2 : firstRun isPriceChar (String.mk ('₹' :: c :: cs)).data
            = some (c :: cs) := by
          show firstRun isPriceChar ('₹' :: c :: cs) = some (c :: cs)
          have hx : isPriceChar '₹' = false := by decide
          simp only [firstRun, hx, Bool.false_eq_true, if_false]
          exact firstRun_fixed isPriceChar c cs hc hcs
        simp only [cleanPrice, if_neg hne, h2]

/-- Review-count cleaning is idempotent. -/
theorem cleanReviews_idem (s : String) : cleanReviews (cleanReviews s) = cleanReviews s := by
  by_cases h : s = ""
  · subst h; rfl
  · cases hfr : firstRun Char.isDigit s.data with
    | none =>
        have hs : cleanReviews s = "N/A" := by
          simp only [cleanReviews, if_neg h, hfr]
        rw [hs]; decide
    | some r =>
        obtain ⟨c, cs, rfl, hc, hcs⟩ := firstRun_sound _ _ _ hfr
        have hs : cleanReviews s = String.mk (c :: cs) := by
          simp only [cleanReviews, if_neg h, hfr]
        rw [hs]
        have hne : String.mk (c :: cs) ≠ "" := string_mk_ne_empty _ _
        have h2 : firstRun Char.isDigit (String.mk (c :: cs)).data = some (c :: cs) :=
          firstRun_fixed Char.isDigit c cs hc hcs
        simp only [cleanReviews, if_neg hne, h2]

/-- Shape of a successful `ratingRun`: a digit, digits, then optionally a dot
and digits. -/
theorem ratingRun_sound (l r : List Char) (h : ratingRun l = some r) :
    ∃ c ds t, r = c :: ds ++ t ∧ c.isDigit = true ∧ (∀ a ∈ ds, a.isDigit = true) ∧
      (t = [] ∨ ∃ es, t = '.' :: es ∧ ∀ a ∈ es, a.isDigit = true) := by
  induction l with
  | nil => simp [ratingRun] at h
  | cons b bs ih =>
      by_cases hb : b.isDigit = true
      · simp only [ratingRun, hb, if_true, Option.some.injEq] at h
        subst h
        cases hdw : bs.dropWhile Char.isDigit with
        | nil =>
            refine ⟨b, bs.takeWhile Char.isDigit, [], ?_, hb,
              takeWhile_forall _ _, Or.inl rfl⟩
            simp [digitsDotTok, hdw]
        | cons x xs =>
            by_cases hx : x = '.'
            · subst hx
              refine ⟨b, bs.takeWhile Char.isDigit, '.' :: xs.takeWhile Char.isDigit,
                ?_, hb, takeWhile_forall _ _, Or.inr ⟨_, rfl, takeWhile_forall _ _⟩⟩
              simp [digitsDotTok, hdw]
            · refine ⟨b, bs.takeWhile Char.isDigit, [], ?_, hb,
                takeWhile_forall _ _, Or.inl rfl⟩
              simp [digitsDotTok, hdw, hx]
      · simp only [ratingRun, hb, Bool.false_eq_true, if_false] at h
        exact ih h

/-- The number token of `ratingRun` re-parses to itself. -/
theorem digitsDotTok_fixed (c : Char) (ds t : List Char)
    (hds : ∀ a ∈ ds, a.isDigit = true)
    (ht : t = [] ∨ ∃ es, t = '.' :: es ∧ ∀ a ∈ es, a.isDigit = true) :
    digitsDotTok c (ds ++ t) = c :: ds ++ t := by
  rcases ht with rfl | ⟨es, rfl, hes⟩
  · simp only [digitsDotTok, List.append_nil]
    rw [takeWhile_all _ ds hds, dropWhile_all _ ds hds]
  · simp only [digitsDotTok]
    rw [takeWhile_append_stop _ ds '.' es hds (by decide),
      dropWhile_append_stop _ ds '.' es hds (by decide)]
    simp [takeWhile_all _ es hes]

/-- Rating cleaning is idempotent. -/
theorem cleanRating_idem (s : String) : cleanRating (cleanRating s) = cleanRating s := by
  by_cases h : s = ""
  · subst h; rfl
  · cases hfr : ratingRun s.data with
    | none =>
        have hs : cleanRating s = "N/A" := by
          simp only [cleanRating, if_neg h, hfr]
        rw [hs]; decide
    | some r =>
        obtain ⟨c, ds, t, rfl, hc, hds, ht⟩ := ratingRun_sound _ _ hfr
        have hs : cleanRating s = String.mk (c :: ds ++ t) := by
          simp only [cleanRating, if_neg h, hfr]
        rw [hs]
        have hne : String.mk (c :: ds ++ t) ≠ "" := string_mk_ne_empty _ _
        have h2 : ratingRun (String.mk (c :: ds ++ t)).data = some (c :: ds ++ t) := by
          show ratingRun (c :: (ds ++ t)) = some (c :: ds ++ t)
          simp only [ratingRun, hc, if_true]
          rw [digitsDotTok_fixed c ds t hds ht]
        simp only [cleanRating, if_neg hne, h2]

/-! ## Lemmas for the prefix-stripping loop -/

/-- The stripping fold preserves trimmed-ness of its accumulator. -/
theorem foldl_stripStep_strip (ps : List String) (n : String) (h : pyStrip n = n) :
    pyStrip (ps.foldl stripStep n) = ps.foldl stripStep n := by
  induction ps generalizing n with
  | nil => simpa using h
  | cons p pr ih =>
      rw [List.foldl_cons]
      apply ih
      by_cases hp : pyStartsWith n p = true
      · simp only [stripStep, hp, if_true]
        exact pyStrip_idem _
      · simp only [stripStep, hp, Bool.false_eq_true, if_false]
        exact h

/-- The cleaned name is trimmed. -/
theorem stripPrefixes_stripped (s : String) :
    pyStrip (stripPrefixes s) = stripPrefixes s :=
  foldl_stripStep_strip _ _ (pyStrip_idem s)

/-- The stripping fold fixes a name no listed prefix heads. -/
theorem foldl_stripStep_nomatch (ps : List String) (n : String)
    (h : ∀ p ∈ ps, pyStartsWith n p = false) : ps.foldl stripStep n = n := by
  induction ps with
  | nil => rfl
  | cons p pr ih =>
      rw [List.foldl_cons]
      have hp := h p (List.mem_cons_self p pr)
      rw [show stripStep n p = n by simp [stripStep, hp]]
      exact ih fun q hq => h q (List.mem_cons_of_mem p hq)

/-- Name cleaning is idempotent whenever the once-cleaned name does not again
begin with a removable prefix. -/
theorem cleanName_idem_of_nomatch (s : String)
    (h : ∀ p ∈ prefixes_to_remove, pyStartsWith (cleanName s) p = false) :
    cleanName (cleanName s) = cleanName s := by
  by_cases h0 : s = ""
  · subst h0; rfl
  · have h1 : cleanName s = stripPrefixes s := by simp [cleanName, h0]
    rw [h1] at h ⊢
    by_cases h2 : stripPrefixes s = ""
    · rw [h2]; rfl
    · have h3 : cleanName (stripPrefixes s) = stripPrefixes (stripPrefixes s) := by
        simp [cleanName, h2]
      rw [h3]
      calc stripPrefixes (stripPrefixes s)
          = prefixes_to_remove.foldl stripStep (pyStrip (stripPrefixes s)) := rfl
        _ = prefixes_to_remove.foldl stripStep (stripPrefixes s) := by
            rw [stripPrefixes_stripped]
        _ = stripPrefixes s := foldl_stripStep_nomatch _ _ h

/-! ## Resolver order lemmas -/

/-- Selectors that yield nothing are skipped by the resolver. -/
theorem extract_skip (soup : Node) (pre l : List Sel)
    (h : ∀ p ∈ pre, selResult soup p = none) :
    extract_with_multiple_selectors soup (pre ++ l)
      = extract_with_multiple_selectors soup l := by
  induction pre with
  | nil => rfl
  | cons q qs ih =>
      have h1 := h q (List.mem_cons_self q qs)
      have h2 : ∀ p ∈ qs, selResult soup p = none :=
        fun p hp => h p (List.mem_cons_of_mem q hp)
      rw [List.cons_append]
      cases q with
      | contains pat =>
          cases hfm : findMatchingTexts pat soup with
          | nil =>
              simp only [extract_with_multiple_selectors, hfm]
              exact ih h2
          | cons a tl =>
              exfalso
              obtain ⟨s0, par⟩ := a
              simp [selResult, hfm] at h1
      | structural qq =>
          cases hso : selectOne soup qq with
          | none =>
              simp only [extract_with_multiple_selectors, hso]
              exact ih h2
          | some e =>
              have ht : ¬(getTextStrip e ≠ "" ∧ getTextStrip e ≠ "N/A") := by
                intro hcon
                simp only [selResult, hso] at h1
                rw [if_pos hcon] at h1
                exact Option.noConfusion h1
              simp only [extract_with_multiple_selectors, hso]
              rw [if_neg ht]
              exact ih h2

/-- C1 (amended): for the scalar fields, `extract_with_multiple_selectors`
evaluates the expressions strictly in list order and the first succeeding
expression determines the returned value — a structural expression succeeds
exactly when its first match's trimmed text is non-empty and differs from the
literal `N/A`, and a `:contains` expression succeeds exactly when some text
node matches, returning that node's parent text; expressions after the first
success are never evaluated (the `rest` of the list is arbitrary).  The
offers field is the exception recorded in the counterexample: it evaluates
every expression. -/
theorem c1_scalar_first_success (soup : Node) (pre : List Sel) (s : Sel)
    (t : String) (rest : List Sel)
    (hpre : ∀ p ∈ pre, selResult soup p = none)
    (hs : selResult soup s = some t) :
    extract_with_multiple_selectors soup (pre ++ s :: rest) = t := by
  rw [extract_skip soup pre (s :: rest) hpre]
  cases s with
  | contains pat =>
      cases hfm : findMatchingTexts pat soup with
      | nil => simp [selResult, hfm] at hs
      | cons a tl =>
          obtain ⟨s0, par⟩ := a
          simp only [selResult, hfm] at hs
          simp only [extract_with_multiple_selectors, hfm]
          exact Option.some.inj hs
  | structural q =>
      cases hso : selectOne soup q with
      | none => simp [selResult, hso] at hs
      | some e =>
          simp only [selResult, hso] at hs
          by_cases hcond : getTextStrip e ≠ "" ∧ getTextStrip e ≠ "N/A"
          · rw [if_pos hcond] at hs
            simp only [extract_with_multiple_selectors, hso]
            rw [if_pos hcond]
            exact Option.some.inj hs
          · rw [if_neg hcond] at hs
            exact Option.noConfusion hs

/-- Witness for C1: the whitespace-only first selector is skipped, the second
selector's trimmed text is returned, and the spy selector after it (which
would yield `World`) is never evaluated. -/
theorem c1_scalar_first_success_witness :
    extract_with_multiple_selectors c1wsoup (c1wpre ++ c1wsel :: c1wrest) = "Hello" :=
  c1_scalar_first_success c1wsoup c1wpre c1wsel "Hello" c1wrest (by decide) (by decide)

/-- Counterexample to C1 as stated: for the offers field, the expression after
the first success is still evaluated — with two matching selectors the result
contains both texts instead of only the first one. -/
theorem c1_counterexample :
    selResult c1soup c1selA = some "Offer A" ∧
    extract_offers_with_config c1soup [c1selA, c1selB] = ["Offer A", "Offer B"] ∧
    extract_offers_with_config c1soup [c1selA] = ["Offer A"] ∧
    extract_offers_with_config c1soup [c1selA, c1selB]
      ≠ extract_offers_with_config c1soup [c1selA] :=
  ⟨by decide, by decide, by decide, by decide⟩

/-- C2 (amended): when a text-containment expression fires, the scalar
resolver `extract_with_multiple_selectors` returns the matched text node's
parent text as the claim states; but `extract_delivery_info` and
`extract_availability` instead return the matched text node's OWN stripped
text, not its enclosing element's text. -/
theorem c2_containment_parent_text :
    (∀ (soup : Node) (pre : List Sel) (pat : List String) (rest : List Sel)
        (s : String) (par : Node) (tl : List (String × Node)),
      (∀ p ∈ pre, selResult soup p = none) →
      findMatchingTexts pat soup = (s, par) :: tl →
      extract_with_multiple_selectors soup (pre ++ Sel.contains pat :: rest)
        = getTextStrip par) ∧
    (∀ (soup : Node) (s : String) (par : Node) (tl : List (String × Node)),
      (∀ q ∈ deliveryStructSels, selectAll soup q = []) →
      findMatchingTexts deliveryPat soup = (s, par) :: tl →
      extract_delivery_info soup = pyStrip s) ∧
    (∀ (soup : Node) (s : String) (par : Node) (tl : List (String × Node)),
      (∀ q ∈ availabilityStructSels, selectAll soup q = []) →
      findMatchingTexts availabilityPat soup = (s, par) :: tl →
      extract_availability soup = pyStrip s) := by
  refine ⟨?_, ?_, ?_⟩
  · intro soup pre pat rest s par tl hpre hfm
    rw [extract_skip soup pre _ hpre]
    simp only [extract_with_multiple_selectors, hfm]
  · intro soup s par tl hstr hfm
    have e : ∀ q ∈ deliveryStructSels, selectOne soup q = none := by
      intro q hq
      simp only [selectOne, hstr q hq, List.head?_nil]
    have e1 := e _ (show css1 "div" [AttrTest.substr "class" "delivery"]
      ∈ deliveryStructSels by simp [deliveryStructSels])
    have e2 := e _ (show css1 "span" [AttrTest.substr "class" "delivery"]
      ∈ deliveryStructSels by simp [deliveryStructSels])
    have e3 := e _ (show css1 "div" [AttrTest.substr "class" "shipping"]
      ∈ deliveryStructSels by simp [deliveryStructSels])
    simp only [extract_delivery_info, deliveryStructSels, List.map_cons,
      List.map_nil, List.cons_append, List.nil_append]
    simp only [dLoop, e1, e2, e3, hfm]
  · intro soup s par tl hstr hfm
    have e : ∀ q ∈ availabilityStructSels, selectOne soup q = none := by
      intro q hq
      simp only [selectOne, hstr q hq, List.head?_nil]
    have e1 := e _ (show css1 "span" [AttrTest.substr "class" "stock"]
      ∈ availabilityStructSels by simp [availabilityStructSels])
    have e2 := e _ (show css1 "div" [AttrTest.substr "class" "availability"]
      ∈ availabilityStructSels by simp [availabilityStructSels])
    simp only [extract_availability, availabilityStructSels, List.map_cons,
      List.map_nil, List.cons_append, List.nil_append]
    simp only [dLoop, e1, e2, hfm]

/-- Witness for C2 (amended): the resolver containment branch returns the
span's text; delivery and availability return the matched node's own
stripped text. -/
theorem c2_containment_parent_text_witness :
    extract_with_multiple_selectors c2wsoup (c2wpre ++ Sel.contains ["off"] :: [])
      = getTextStrip c2wspan ∧
    extract_delivery_info c2frag = pyStrip " Fast delivery " ∧
    extract_availability c2afrag = pyStrip "In stock now" :=
  ⟨c2_containment_parent_text.1 c2wsoup c2wpre ["off"] [] " 5% off " c2wspan []
      (by decide) rfl,
   c2_containment_parent_text.2.1 c2frag " Fast delivery " c2pEl []
      (by intro q hq; fin_cases hq <;> rfl) rfl,
   c2_containment_parent_text.2.2 c2afrag "In stock now"
      (Node.elem "div" [] [Node.text "In stock now", Node.elem "i" [] [Node.text "!"]]) []
      (by intro q hq; fin_cases hq <;> rfl) rfl⟩

/-- Counterexample to C2 as stated: `extract_delivery_info` returns the raw
matched text node (stripped), which differs from the trimmed visible text of
the node's nearest enclosing element. -/
theorem c2_counterexample :
    findMatchingTexts deliveryPat c2frag = [(" Fast delivery ", c2pEl)] ∧
    extract_delivery_info c2frag = "Fast delivery" ∧
    getTextStrip c2pEl = "Fast delivery₹99" ∧
    extract_delivery_info c2frag ≠ getTextStrip c2pEl :=
  ⟨rfl, rfl, rfl, by decide⟩

/-- C3 (amended): re-cleaning an already-cleaned map never changes the
price, rating or review-count fields; and the whole map is a fixed point
provided the once-cleaned name does not again begin with a removable
boilerplate prefix (the counterexample shows a repeated prefix is stripped
further on the second application). -/
theorem c3_cleaning_idempotent (m : RawFieldMap) :
    (clean_product_data (clean_product_data m)).current_price
        = (clean_product_data m).current_price ∧
    (clean_product_data (clean_product_data m)).rating
        = (clean_product_data m).rating ∧
    (clean_product_data (clean_product_data m)).reviews
        = (clean_product_data m).reviews ∧
    ((∀ p ∈ prefixes_to_remove,
        pyStartsWith (clean_product_data m).name p = false) →
      clean_product_data (clean_product_data m) = clean_product_data m) := by
  refine ⟨cleanPrice_idem m.current_price, cleanRating_idem m.rating,
    cleanReviews_idem m.reviews, ?_⟩
  intro h
  have hn : cleanName (cleanName m.name) = cleanName m.name :=
    cleanName_idem_of_nomatch m.name h
  show ({ m with
      name := cleanName (cleanName m.name),
      current_price := cleanPrice (cleanPrice m.current_price),
      rating := cleanRating (cleanRating m.rating),
      reviews := cleanReviews (cleanReviews m.reviews) } : RawFieldMap) = _
  rw [hn, cleanPrice_idem, cleanRating_idem, cleanReviews_idem]
  rfl

/-- Witness for C3 (amended), at a map with a prefix-free name. -/
theorem c3_cleaning_idempotent_witness :
    clean_product_data (clean_product_data c3wit) = clean_product_data c3wit :=
  (c3_cleaning_idempotent c3wit).2.2.2 (by decide)

/-- Counterexample to C3 as stated: cleaning is not idempotent on names that
contain a repeated boilerplate prefix. -/
theorem c3_counterexample :
    (clean_product_data c3ex).name = "Sponsored Watch" ∧
    (clean_product_data (clean_product_data c3ex)).name = "Watch" ∧
    clean_product_data (clean_product_data c3ex) ≠ clean_product_data c3ex :=
  ⟨by decide, by decide, by decide⟩

/-- C4: price cleaning maps `₹ 12,999 (incl. taxes)` to `₹12,999`, and a
price text with no digit or comma to the unknown sentinel (spelled `N/A` in
the code). -/
theorem c4_price_cleaning :
    (clean_product_data c4a).current_price = "₹12,999" ∧
    (clean_product_data c4b).current_price = "N/A" :=
  ⟨by decide, by decide⟩

/-- C5: validation (after in-place cleaning) rejects the names `Sponsored`
(stripped to empty), `12345` (all digits) and `₹499` (too short and
currency-headed), and accepts `Noise ColorFit Pulse 2 Smartwatch` under the
flipkart profile whose minimum name length is 5. -/
theorem c5_name_validation :
    (validate_product_data c5a "flipkart").2 = false ∧
    (validate_product_data c5b "flipkart").2 = false ∧
    (validate_product_data c5c "flipkart").2 = false ∧
    (validate_product_data c5d "flipkart").2 = true :=
  ⟨by decide, by decide, by decide, by decide⟩

/-- Any record whose cleaned name is shorter than five characters fails the
generic length check, whatever the site. -/
theorem validate_checks_short (c : RawFieldMap) (k : String)
    (h : c.name.length < 5) : validate_checks c k = false := by
  unfold validate_checks
  split_ifs <;> rfl

/-- Under the amazon profile a cleaned name shorter than ten characters is
rejected. -/
theorem validate_checks_amazon (c : RawFieldMap)
    (h : c.name.length < 10) : validate_checks c "amazon" = false := by
  unfold validate_checks
  by_cases h1 : c.name = "" ∨ c.name = "N/A"
  · rw [if_pos h1]
  · rw [if_neg h1]
    by_cases h2 : (prefixes_to_remove.any fun p => strContains c.name p) = true
    · rw [if_pos h2]
    · rw [if_neg h2]
      by_cases h3 : c.name.length < 5
      · rw [if_pos h3]
      · rw [if_neg h3]
        by_cases h4 : pyIsDigit c.name = true
        · rw [if_pos h4]
        · rw [if_neg h4]
          by_cases h5 : pyStartsWith c.name "₹" = true
          · rw [if_pos h5]
          · rw [if_neg h5, if_pos rfl, if_pos h]

/-- C6: the site override is an additional floor, not a replacement — under
the lenient sathya profile (minimum 2) a cleaned name of length 3 or 4 is
still rejected by the generic minimum of 5, and under the strict amazon
profile (minimum 10) a cleaned name of length 5 to 9 is rejected. -/
theorem c6_site_floor (m : RawFieldMap) :
    (3 ≤ (clean_product_data m).name.length →
      (clean_product_data m).name.length ≤ 4 →
      (validate_product_data m "sathya").2 = false) ∧
    (5 ≤ (clean_product_data m).name.length →
      (clean_product_data m).name.length ≤ 9 →
      (validate_product_data m "amazon").2 = false) := by
  constructor
  · intro _ h4
    exact validate_checks_short (clean_product_data m) "sathya" (by omega)
  · intro _ h9
    exact validate_checks_amazon (clean_product_data m) (by omega)

/-- Witness for C6 at a length-3 name under sathya and a length-7 name under
amazon. -/
theorem c6_site_floor_witness :
    (validate_product_data c6w1 "sathya").2 = false ∧
    (validate_product_data c6w2 "amazon").2 = false :=
  ⟨(c6_site_floor c6w1).1 (by decide) (by decide),
   (c6_site_floor c6w2).2 (by decide) (by decide)⟩

/-- The query loop of the Generic Extractor commits to the first matching
query: earlier empty queries are skipped, the winner's first ten matches are
processed, and the queries after the winner are arbitrary (hence never
consulted). -/
theorem altLoop_first_match (doc : Node) (k : String) (sq : Option String)
    (ps : List RawFieldMap) (pre : List CssSel) (s : CssSel) (rest : List CssSel)
    (hpre : ∀ q ∈ pre, selectAll doc q = [])
    (hs : (selectAll doc s).isEmpty = false) :
    altLoop doc k sq ps (pre ++ s :: rest)
      = processAlt k sq ps ((selectAll doc s).take 10) := by
  induction pre with
  | nil =>
      rw [List.nil_append]
      cases hsa : selectAll doc s with
      | nil => rw [hsa] at hs; simp at hs
      | cons e es => simp only [altLoop, hsa]
  | cons q qs ih =>
      have hq := hpre q (List.mem_cons_self q qs)
      rw [List.cons_append]
      simp only [altLoop, hq]
      exact ih fun r hr => hpre r (List.mem_cons_of_mem q hr)

/-- C7: the Generic Extractor runs only when the session holds zero accepted
records for the site, and it processes at most ten elements from the first
fallback query with any match, consulting no later query (even if every
candidate from the winner is rejected by validation). -/
theorem c7_generic_extractor :
    (∀ (doc : Node) (site_key : String) (sq : Option String)
        (ps : List RawFieldMap),
      (ps.filter fun p => p.site == site_key).length ≠ 0 →
      scrape_site_fallbacks doc site_key sq ps = ps) ∧
    (∀ (doc : Node) (site_key : String) (sq : Option String)
        (ps : List RawFieldMap) (pre : List CssSel) (s : CssSel)
        (rest : List CssSel),
      alternative_selectors = pre ++ s :: rest →
      (∀ q ∈ pre, selectAll doc q = []) →
      (selectAll doc s).isEmpty = false →
      try_alternative_parsing doc site_key sq ps
        = processAlt site_key sq ps ((selectAll doc s).take 10)) := by
  constructor
  · intro doc k sq ps h
    have h1 : ps.isEmpty = false := by
      cases ps with
      | nil => simp at h
      | cons a as => rfl
    have h2 : ((ps.filter fun p => p.site == k).length == 0) = false := by
      simpa using h
    simp only [scrape_site_fallbacks, h1, h2, Bool.or_self]
    rfl
  · intro doc k sq ps pre s rest heq hpre hs
    show altLoop doc k sq ps alternative_selectors = _
    rw [heq]
    exact altLoop_first_match doc k sq ps pre s rest hpre hs

/-- Witness for C7: with an amazon record already present the fallbacks do
nothing; on a document whose only hit is the third fallback query, the result
is that query's (rejected) candidates and nothing more — the later queries
are never consulted and the session stays empty. -/
theorem c7_generic_extractor_witness :
    scrape_site_fallbacks c7doc "amazon" none [c7rec] = [c7rec] ∧
    try_alternative_parsing c7doc "amazon" none []
      = processAlt "amazon" none [] ((selectAll c7doc c7sel3).take 10) ∧
    try_alternative_parsing c7doc "amazon" none [] = [] :=
  ⟨c7_generic_extractor.1 c7doc "amazon" none [c7rec] (by decide),
   c7_generic_extractor.2 c7doc "amazon" none [] c7pre c7sel3 c7rest rfl
     (by intro q hq; fin_cases hq <;> rfl) rfl,
   by decide⟩

/-- C8 (amended): on the visible text
`₹799\nWireless Mouse\n4.2 out of 5\n230 ratings` the Heuristic Text
Extractor produces NO record: the `₹799` line has only four characters and is
discarded by the longer-than-five filter, `Wireless Mouse` precedes any
anchor line and is discarded, the single completed chunk `4.2 out of 5`
fails the twenty-character threshold, and the trailing `230 ratings` chunk is
never flushed. -/
theorem c8_heuristic_chunking :
    splitLongLines c8text = ["Wireless Mouse", "4.2 out of 5", "230 ratings"] ∧
    product_chunks c8text = ["4.2 out of 5"] ∧
    ∀ (site_key : String) (sq : Option String) (ps : List RawFieldMap),
      try_aggressive_parsing c8doc site_key sq ps = ps := by
  refine ⟨by decide, by decide, ?_⟩
  intro k sq ps
  show aggLoop k sq
    ((product_chunks (getTextRaw (stripScriptStyle c8doc))).take 20).enum ps = ps
  rw [show ((product_chunks (getTextRaw (stripScriptStyle c8doc))).take 20).enum
      = [(0, "4.2 out of 5")] from rfl]
  simp only [aggLoop]
  rw [if_neg (by decide)]

/-- Counterexample to C8 as stated: the extractor yields no record at all on
that text (so no record with price `₹799`, rating `4.2` and reviews
`230 ratings` exists). -/
theorem c8_counterexample :
    try_aggressive_parsing c8doc "amazon" none [] = [] := by decide

/-- The URL loop of the Emergency Extractor stops at the first successful
fetch, appending exactly one placeholder record. -/
theorem emergencyLoop_first_success (fetch : String → Option FetchResult)
    (ps : List RawFieldMap) (pre : List String) (u : String) (rest : List String)
    (page : Node) (hpre : ∀ v ∈ pre, fetchOk (fetch v) = none)
    (hu : fetchOk (fetch u) = some page) :
    emergencyLoop fetch ps (pre ++ u :: rest) = ps ++ [emergencyRecord ps page] := by
  induction pre with
  | nil => simp only [List.nil_append, emergencyLoop, hu]
  | cons v vs ih =>
      have hv := hpre v (List.mem_cons_self v vs)
      simp only [List.cons_append, emergencyLoop, hv]
      exact ih fun w hw => hpre w (List.mem_cons_of_mem v hw)

/-- C9: the Emergency Extractor is gated on a fully empty session (its single
call site in `main` skips it whenever any record exists), tries the fixed
fallback pages in order, and on the first successful fetch appends exactly
one placeholder record with site identifier `emergency`, trying no further
page. -/
theorem c9_emergency :
    (∀ (fetch : String → Option FetchResult) (ps : List RawFieldMap),
      ps ≠ [] → main_emergency_step fetch ps = ps) ∧
    (∀ (fetch : String → Option FetchResult) (ps : List RawFieldMap)
        (pre : List String) (u : String) (rest : List String) (page : Node),
      simple_urls = pre ++ u :: rest →
      (∀ v ∈ pre, fetchOk (fetch v) = none) →
      fetchOk (fetch u) = some page →
      emergency_extraction fetch ps = ps ++ [emergencyRecord ps page] ∧
      (emergencyRecord ps page).site = "emergency") := by
  constructor
  · intro fetch ps h
    simp only [main_emergency_step]
    rw [if_neg fun hc => h (List.length_eq_zero.mp hc)]
  · intro fetch ps pre u rest page heq hpre hu
    refine ⟨?_, rfl⟩
    show emergencyLoop fetch ps simple_urls = _
    rw [heq]
    exact emergencyLoop_first_success fetch ps pre u rest page hpre hu

/-- Witness for C9: a session with a record is left alone; an empty session
gets exactly the one `emergency` record after the first URL fails and the
second succeeds. -/
theorem c9_emergency_witness :
    main_emergency_step c9fetch [emergencyRecord [] c9page]
      = [emergencyRecord [] c9page] ∧
    emergency_extraction c9fetch [] = [] ++ [emergencyRecord [] c9page] ∧
    (emergencyRecord [] c9page).site = "emergency" :=
  ⟨c9_emergency.1 c9fetch [emergencyRecord [] c9page] (by simp),
   (c9_emergency.2 c9fetch [] ["https://httpbin.org/html"] "https://example.com"
      [] c9page rfl (by intro v hv; fin_cases hv; rfl) rfl).1,
   (c9_emergency.2 c9fetch [] ["https://httpbin.org/html"] "https://example.com"
      [] c9page rfl (by intro v hv; fin_cases hv; rfl) rfl).2⟩

/-- C10: validation rewrites the caller's map — after `validate_product_data`
the caller-visible map is exactly the cleaned map, even when the record is
rejected; at a concrete rejected map every cleanable field has changed. -/
theorem c10_validate_mutates :
    (∀ (m : RawFieldMap) (k : String),
      (validate_product_data m k).1 = clean_product_data m) ∧
    (validate_product_data c10ex "amazon").2 = false ∧
    (validate_product_data c10ex "amazon").1 ≠ c10ex ∧
    (validate_product_data c10ex "amazon").1.name = "" ∧
    (validate_product_data c10ex "amazon").1.current_price = "₹1,299" ∧
    (validate_product_data c10ex "amazon").1.rating = "4.2" ∧
    (validate_product_data c10ex "amazon").1.reviews = "1" :=
  ⟨fun m k => rfl, by decide, by decide, by decide, by decide, by decide, by decide⟩
